import Mathlib

/-!
Shallow embedding of the Gantt task-tree state machine from
`src/contexts/GanttContext.tsx` and the resize-session logic from
`src/components/DraggableTaskRow.tsx`.

Modelling conventions:
* Calendar dates are whole-day numbers (`Int`); `date-fns`'s `addDays` and
  `differenceInDays` act on whole days, so `addDays d n = d + n` and
  `differenceInDays e s = e - s`.
* TypeScript string-literal unions (`'start' | 'end'`, `'day' | ...`) are
  modelled as `String`; the three-valued insert position is a closed
  inductive because every occurrence is exhaustively matched.
* Optional fields (`children?`, `isExpanded?`, ...) are `Option`s; a
  `Partial<Task>` payload is a record of `Option`s where `none` means the
  key is absent from the payload object.
* `zoomLevel` is a rational number standing for the JS float (only the
  values 0.5..3 matter and they are exact in binary anyway).
-/

namespace Gantt

/-- Scalar (non-recursive) fields of the `Task` interface. -/
structure TaskData where
  id : String
  name : String := ""
  startDate : Int := 0
  endDate : Int := 0
  progress : Int := 0
  color : String := ""
  isExpanded : Option Bool := none
  parentId : Option String := none
  order : Int := 0
  dependencies : Option (List String) := none
  resources : Option (List String) := none
  notes : Option String := none
  priority : Option String := none
  status : Option String := none
  deriving Repr, DecidableEq

/-- A `Task` node: its scalar fields plus the optional `children` array. -/
inductive Task : Type where
  | mk : TaskData → Option (List Task) → Task

/-- The scalar fields of a task. -/
def Task.data : Task → TaskData
  | .mk d _ => d

/-- The optional `children` array of a task. -/
def Task.children : Task → Option (List Task)
  | .mk _ c => c

/-- The `id` field of a task. -/
def Task.tid (t : Task) : String := t.data.id

/-- A `Partial<Task>` payload: each field is `some v` when the key is
present in the payload object and `none` when it is absent. -/
structure TaskPatch where
  id : Option String := none
  name : Option String := none
  startDate : Option Int := none
  endDate : Option Int := none
  progress : Option Int := none
  color : Option String := none
  isExpanded : Option (Option Bool) := none
  children : Option (Option (List Task)) := none
  parentId : Option (Option String) := none
  order : Option Int := none
  dependencies : Option (Option (List String)) := none
  resources : Option (Option (List String)) := none
  notes : Option (Option String) := none
  priority : Option (Option String) := none
  status : Option (Option String) := none

/-- Object spread `{ ...task, ...updates }` restricted to the scalar fields. -/
def applyData (d : TaskData) (p : TaskPatch) : TaskData where
  id := p.id.getD d.id
  name := p.name.getD d.name
  startDate := p.startDate.getD d.startDate
  endDate := p.endDate.getD d.endDate
  progress := p.progress.getD d.progress
  color := p.color.getD d.color
  isExpanded := p.isExpanded.getD d.isExpanded
  parentId := p.parentId.getD d.parentId
  order := p.order.getD d.order
  dependencies := p.dependencies.getD d.dependencies
  resources := p.resources.getD d.resources
  notes := p.notes.getD d.notes
  priority := p.priority.getD d.priority
  status := p.status.getD d.status

/-- Object spread `{ ...task, ...updates }` on a whole task node. -/
def applyPatch : Task → TaskPatch → Task
  | .mk d c, p => .mk (applyData d p) (p.children.getD c)

/-- Embedding of `findTaskById` (GanttContext.tsx 259-268): depth-first pre-order search. -/
def findTaskById : List Task → String → Option Task
  | [], _ => none
  | Task.mk d c :: ts, taskId =>
    if d.id = taskId then some (Task.mk d c)
    else
      match c with
      | some cs =>
        match findTaskById cs taskId with
        | some found => some found
        | none => findTaskById ts taskId
      | none => findTaskById ts taskId

/-- Embedding of `updateTaskRecursively` (GanttContext.tsx 247-257): map over the forest,
shallow-merging `updates` into the node matching `taskId`; a non-matching
node with a `children` array is rebuilt around the recursively updated
children. -/
def updateTaskRecursively : List Task → String → TaskPatch → List Task
  | [], _, _ => []
  | Task.mk d c :: ts, taskId, updates =>
    (if d.id = taskId then applyPatch (Task.mk d c) updates
     else
       match c with
       | some cs => Task.mk d (some (updateTaskRecursively cs taskId updates))
       | none => Task.mk d none) :: updateTaskRecursively ts taskId updates

/-- Embedding of `deleteTaskRecursively` (GanttContext.tsx 310-318), value semantics of the
returned forest: filter out the matching node (dropping its whole subtree),
recursively deleting inside every remaining node's children. -/
def deleteTaskRecursively : List Task → String → List Task
  | [], _ => []
  | Task.mk d c :: ts, taskId =>
    if d.id = taskId then deleteTaskRecursively ts taskId
    else
      (match c with
       | some cs => Task.mk d (some (deleteTaskRecursively cs taskId))
       | none => Task.mk d none) :: deleteTaskRecursively ts taskId

/-- The `'above' | 'below' | 'subtask'` insert-position union. -/
inductive Position : Type where
  | above | below | subtask
  deriving Repr, DecidableEq

/-- Spread `\x7b ...newTask, parentId: targetTaskId \x7d`. -/
def withParentId (t : Task) (targetTaskId : String) : Task :=
  Task.mk { t.data with parentId := some targetTaskId } t.children

/-- Body of `insertTask` inside `addTaskAtPosition` (GanttContext.tsx
273-305), value semantics of the returned array: scan the list; at the
first node matching `targetTaskId` perform the positional insert and leave
the remainder of the list untouched (the JS loop returns there); every
non-matching node scanned before that is rebuilt around its recursively
processed children. -/
def insertTask (newTask : Task) (position : Position) (targetTaskId : String) :
    List Task → List Task
  | [] => []
  | Task.mk d c :: rest =>
    if d.id = targetTaskId then
      match position with
      | .subtask =>
        Task.mk { d with isExpanded := some true }
          (some ((c.getD []) ++ [withParentId newTask targetTaskId])) :: rest
      | .above => newTask :: Task.mk d c :: rest
      | .below => Task.mk d c :: newTask :: rest
    else
      (match c with
       | some cs => Task.mk d (some (insertTask newTask position targetTaskId cs))
       | none => Task.mk d none) :: insertTask newTask position targetTaskId rest

/-- Rebuild step applied by `insertTask` to each scanned non-matching node
(`taskList[i] = { ...taskList[i], children: updatedChildren }`). -/
def insertRebuild (newTask : Task) (position : Position) (targetTaskId : String) :
    Task → Task
  | Task.mk d (some cs) => Task.mk d (some (insertTask newTask position targetTaskId cs))
  | Task.mk d none => Task.mk d none

/-- Embedding of `addTaskAtPosition` (GanttContext.tsx 270-308): `insertTask` run on a
shallow copy of the root list (value-identical to the list itself). -/
def addTaskAtPosition (tasks : List Task) (newTask : Task) (position : Position)
    (targetTaskId : String) : List Task :=
  insertTask newTask position targetTaskId tasks

/-- Total number of nodes in a forest. -/
def countTasks : List Task → Nat
  | [] => 0
  | Task.mk _ none :: ts => 1 + countTasks ts
  | Task.mk _ (some cs) :: ts => 1 + countTasks cs + countTasks ts

/-- Number of nodes of a single task's subtree (itself included). -/
def taskSize : Task → Nat
  | Task.mk _ none => 1
  | Task.mk _ (some cs) => 1 + countTasks cs

/-- Number of nodes in the forest whose `id` equals `taskId`. -/
def countId : List Task → String → Nat
  | [], _ => 0
  | Task.mk d none :: ts, taskId =>
    (if d.id = taskId then 1 else 0) + countId ts taskId
  | Task.mk d (some cs) :: ts, taskId =>
    (if d.id = taskId then 1 else 0) + countId cs taskId + countId ts taskId

/-- Total number of nodes that `deleteTaskRecursively` removes from a
forest: each node whose `id` matches is dropped together with its whole
subtree (the filter callback returns `false` without recursing into it);
below a non-matching node the children are filtered recursively. -/
def removedSize : List Task → String → Nat
  | [], _ => 0
  | Task.mk d c :: ts, taskId =>
    if d.id = taskId then taskSize (Task.mk d c) + removedSize ts taskId
    else
      (match c with
       | some cs => removedSize cs taskId
       | none => 0) + removedSize ts taskId

/-! ## The state machine (`GanttState`, `GanttAction`, `ganttReducer`) -/

/-- The `GanttState` interface (GanttContext.tsx 22-31). -/
structure GanttState where
  tasks : List Task
  selectedTaskId : Option String
  viewMode : String
  isMaximized : Bool
  zoomLevel : Rat
  draggedTask : Option Task
  isResizing : Bool
  resizeHandle : Option String

/-- The closed `GanttAction` union (GanttContext.tsx 33-50). -/
inductive GanttAction : Type where
  | SET_TASKS (payload : List Task)
  | ADD_TASK (payload : Task)
  | ADD_TASK_AT_POSITION (task : Task) (position : Position) (targetTaskId : String)
  | UPDATE_TASK (id : String) (updates : TaskPatch)
  | DELETE_TASK (payload : String)
  | SELECT_TASK (payload : Option String)
  | TOGGLE_TASK_EXPANSION (payload : String)
  | SET_VIEW_MODE (payload : String)
  | TOGGLE_MAXIMIZE
  | SET_ZOOM_LEVEL (payload : Rat)
  | START_DRAG (payload : Task)
  | END_DRAG
  | REORDER_TASKS (sourceIndex destinationIndex : Int)
  | MOVE_TASK_TO_PARENT (taskId : String) (newParentId : Option String) (newIndex : Int)
  | START_RESIZE (taskId : String) (handle : String)
  | END_RESIZE
  | RESIZE_TASK (taskId : String) (newStartDate newEndDate : Option Int)

/-- JS `Array.prototype.splice` start-index normalisation: negative offsets
count back from the end (clamped at 0), positive offsets are clamped at the
length. -/
def spliceStart (len : Nat) (start : Int) : Nat :=
  if start < 0 then ((len : Int) + start).toNat else min start.toNat len

/-- The `REORDER_TASKS` body (GanttContext.tsx 216-218) on the raw JS array:
`const reordered = [...tasks]; const [removed] = reordered.splice(src, 1);
reordered.splice(dst, 0, removed);`.  The element type is `Option Task`
because when the first splice removes nothing, `removed` is `undefined` and
the second splice inserts that `undefined` hole into the array. -/
def reorderTasks (tasks : List Task) (sourceIndex destinationIndex : Int) :
    List (Option Task) :=
  let reordered : List (Option Task) := tasks.map some
  let s := spliceStart reordered.length sourceIndex
  let removed : Option Task := ((reordered.drop s).take 1).head?.join
  let afterRemove := reordered.take s ++ reordered.drop (s + 1)
  let d := spliceStart afterRemove.length destinationIndex
  afterRemove.take d ++ removed :: afterRemove.drop d

/-- Embedding of `ganttReducer` (GanttContext.tsx 163-244).  `MOVE_TASK_TO_PARENT` has no
case in the source's switch, so it reaches the `default` branch and returns
the state unchanged.  In `REORDER_TASKS` the raw JS array may contain an
`undefined` hole (see `reorderTasks`); the typed task list cannot hold one,
so holes are dropped when storing the result back into the state. -/
def ganttReducer (state : GanttState) (action : GanttAction) : GanttState :=
  match action with
  | .SET_TASKS payload => { state with tasks := payload }
  | .ADD_TASK payload => { state with tasks := state.tasks ++ [payload] }
  | .ADD_TASK_AT_POSITION task position targetTaskId =>
    { state with tasks := addTaskAtPosition state.tasks task position targetTaskId }
  | .UPDATE_TASK i updates =>
    { state with tasks := updateTaskRecursively state.tasks i updates }
  | .DELETE_TASK payload =>
    { state with tasks := deleteTaskRecursively state.tasks payload }
  | .SELECT_TASK payload => { state with selectedTaskId := payload }
  | .TOGGLE_TASK_EXPANSION payload =>
    -- `isExpanded: !findTaskById(state.tasks, payload)?.isExpanded`:
    -- `?.` yields undefined when the task is missing, and `!` sends both
    -- undefined and false to true.
    { state with
      tasks := updateTaskRecursively state.tasks payload
        { isExpanded :=
            some (some (!(((findTaskById state.tasks payload).bind
              (fun t => t.data.isExpanded)).getD false))) } }
  | .SET_VIEW_MODE payload => { state with viewMode := payload }
  | .TOGGLE_MAXIMIZE => { state with isMaximized := !state.isMaximized }
  | .SET_ZOOM_LEVEL payload =>
    { state with zoomLevel := max (1/2 : Rat) (min 3 payload) }
  | .START_DRAG payload => { state with draggedTask := some payload }
  | .END_DRAG => { state with draggedTask := none }
  | .REORDER_TASKS sourceIndex destinationIndex =>
    { state with
      tasks := (reorderTasks state.tasks sourceIndex destinationIndex).filterMap
        (fun x => x) }
  | .MOVE_TASK_TO_PARENT _ _ _ => state
  | .START_RESIZE taskId handle =>
    { state with
      isResizing := true
      resizeHandle := some handle
      selectedTaskId := some taskId }
  | .END_RESIZE => { state with isResizing := false, resizeHandle := none }
  | .RESIZE_TASK taskId newStartDate newEndDate =>
    { state with
      tasks := updateTaskRecursively state.tasks taskId
        { startDate := newStartDate, endDate := newEndDate } }

/-! ## Timeline geometry (GanttContext.tsx 344-361) -/

/-- The `date-fns` `differenceInDays` on whole-day dates. -/
def differenceInDays (dateLeft dateRight : Int) : Int := dateLeft - dateRight

/-- The `date-fns` `addDays` on whole-day dates. -/
def addDays (date amount : Int) : Int := date + amount

/-- Embedding of `calculateTaskDuration` (GanttContext.tsx 345-347). -/
def calculateTaskDuration (startDate endDate : Int) : Int :=
  differenceInDays endDate startDate + 1

/-! ## Resize session (DraggableTaskRow.tsx 113-142) -/

/-- The `(newStartDate, newEndDate)` pair that `handleResizeMouseMove`
dispatches through `RESIZE_TASK` for a given anchor snapshot
`(origStart, origEnd)` (captured in `originalTask` at gesture start), the
active `resizeHandle` (`"start"` or anything else, which the source's
`else` branch treats as the end handle), and the pointer-derived
`daysDelta`. -/
def handleResizeMouseMove (origStart origEnd : Int) (resizeHandle : String)
    (daysDelta : Int) : Int × Int :=
  if resizeHandle = "start" then
    let newStartDate := addDays origStart daysDelta
    let newStartDate := if origEnd ≤ newStartDate then addDays origEnd (-1) else newStartDate
    (newStartDate, origEnd)
  else
    let newEndDate := addDays origEnd daysDelta
    let newEndDate := if newEndDate ≤ origStart then addDays origStart 1 else newEndDate
    (origStart, newEndDate)

/-! ## Sample fixtures for concrete evaluations -/

/-- A leaf task with id "2". -/
def sampleChild : Task := Task.mk { id := "2", name := "child", parentId := some "1" } none

/-- A root task with id "1" whose only child is `sampleChild`. -/
def sampleParent : Task := Task.mk { id := "1", name := "parent" } (some [sampleChild])

/-- A leaf task with id "a". -/
def sampleA : Task := Task.mk { id := "a" } none

/-- A leaf task with id "b". -/
def sampleB : Task := Task.mk { id := "b" } none

/-- A leaf task with id "x". -/
def sampleX : Task := Task.mk { id := "x" } none

/-- A concrete state whose forest is the single tree `sampleParent`. -/
def sampleState : GanttState where
  tasks := [sampleParent]
  selectedTaskId := none
  viewMode := "day"
  isMaximized := false
  zoomLevel := 1
  draggedTask := none
  isResizing := false
  resizeHandle := none

/-! ## Store-level model of the tree helpers

The value-level definitions above capture the forests the helpers return,
but not what they do to their arguments.  JS objects and arrays are
mutable references, so to reason about mutation of the input forest the
helpers are also embedded against an explicit store: task objects and
task arrays live at numeric references, and each JS statement that writes
through a reference becomes a store update. -/

/-- JS runtime object of a `Task` node: scalar fields by value plus a
reference (`children`) to the children array in the store. -/
structure TaskObj where
  id : String
  name : String := ""
  startDate : Int := 0
  endDate : Int := 0
  progress : Int := 0
  color : String := ""
  isExpanded : Option Bool := none
  children : Option Nat := none
  parentId : Option String := none
  order : Int := 0
  dependencies : Option (List String) := none
  resources : Option (List String) := none
  notes : Option String := none
  priority : Option String := none
  status : Option String := none
  deriving Repr, DecidableEq

/-- The store: task objects and task arrays addressed by reference;
`next` is the next fresh address (shared by both address spaces). -/
structure Heap where
  nodes : Nat → Option TaskObj
  arrs : Nat → Option (List Nat)
  next : Nat

/-- Write a task object through an existing reference (in-place mutation). -/
def Heap.setNode (h : Heap) (r : Nat) (v : TaskObj) : Heap :=
  { h with nodes := fun j => if j = r then some v else h.nodes j }

/-- Write an array through an existing reference (in-place mutation). -/
def Heap.setArr (h : Heap) (r : Nat) (v : List Nat) : Heap :=
  { h with arrs := fun j => if j = r then some v else h.arrs j }

/-- Allocate a fresh task object (`{ ... }` literal or spread). -/
def Heap.allocNode (h : Heap) (v : TaskObj) : Heap × Nat :=
  ({ h with
      nodes := fun j => if j = h.next then some v else h.nodes j
      next := h.next + 1 },
    h.next)

/-- Allocate a fresh array (`[...]` literal, spread copy, `filter` result). -/
def Heap.allocArr (h : Heap) (v : List Nat) : Heap × Nat :=
  ({ h with
      arrs := fun j => if j = h.next then some v else h.arrs j
      next := h.next + 1 },
    h.next)

/-- Store-level `deleteTaskRecursively` (GanttContext.tsx 310-318).  The
filter result is returned as a plain list (the caller owns that fresh
array); `task.children = deleteTaskRecursively(task.children, taskId)`
becomes a `setNode` through the EXISTING reference `r` — the in-place
mutation under scrutiny.  `fuel` bounds the number of recursive
invocations; every JS run of the (acyclic) source terminates, so any
sufficiently large fuel computes the same store and list. -/
def deleteTaskRecursivelyH : Nat → Heap → List Nat → String → Heap × List Nat
  | 0, h, tasks, _ => (h, tasks)
  | fuel + 1, h, tasks, taskId =>
    match tasks with
    | [] => (h, [])
    | r :: rest =>
      match h.nodes r with
      | none =>
        let (h1, out) := deleteTaskRecursivelyH fuel h rest taskId
        (h1, r :: out)
      | some obj =>
        if obj.id = taskId then deleteTaskRecursivelyH fuel h rest taskId
        else
          match obj.children with
          | some cref =>
            let cs := (h.arrs cref).getD []
            let (h1, newCs) := deleteTaskRecursivelyH fuel h cs taskId
            let (h2, newRef) := h1.allocArr newCs
            let h3 := h2.setNode r { obj with children := some newRef }
            let (h4, out) := deleteTaskRecursivelyH fuel h3 rest taskId
            (h4, r :: out)
          | none =>
            let (h1, out) := deleteTaskRecursivelyH fuel h rest taskId
            (h1, r :: out)

/-- Store-level `insertTask` loop inside `addTaskAtPosition`
(GanttContext.tsx 273-305): scan the array at reference `aref` from index
`i`; `taskList.splice(...)` and `taskList[i] = ...` become `setArr`
through the EXISTING reference `aref` — for a nested children array that
is an in-place mutation of the input forest.  `fuel` as in
`deleteTaskRecursivelyH`. -/
def insertTaskH : Nat → Heap → Nat → Nat → Position → String → Nat → Heap
  | 0, h, _, _, _, _, _ => h
  | fuel + 1, h, aref, ntRef, pos, X, i =>
    let arr := (h.arrs aref).getD []
    if i < arr.length then
      let r := arr.getD i 0
      match h.nodes r with
      | none => insertTaskH fuel h aref ntRef pos X (i + 1)
      | some obj =>
        if obj.id = X then
          match pos with
          | .subtask =>
            let ntObj := (h.nodes ntRef).getD { id := "" }
            let (h1, childRef) := h.allocNode { ntObj with parentId := some X }
            let oldCs :=
              match obj.children with
              | some cr => (h.arrs cr).getD []
              | none => []
            let (h2, newArrRef) := h1.allocArr (oldCs ++ [childRef])
            let (h3, updRef) :=
              h2.allocNode { obj with children := some newArrRef, isExpanded := some true }
            h3.setArr aref (arr.set i updRef)
          | .above => h.setArr aref (arr.take i ++ ntRef :: arr.drop i)
          | .below => h.setArr aref (arr.take (i + 1) ++ ntRef :: arr.drop (i + 1))
        else
          match obj.children with
          | some cref =>
            let h1 := insertTaskH fuel h cref ntRef pos X 0
            let (h2, updRef) := h1.allocNode { obj with children := some cref }
            let arr1 := (h2.arrs aref).getD []
            let h3 := h2.setArr aref (arr1.set i updRef)
            insertTaskH fuel h3 aref ntRef pos X (i + 1)
          | none => insertTaskH fuel h aref ntRef pos X (i + 1)
    else h

/-- Store-level `addTaskAtPosition` (GanttContext.tsx 270-308):
`const newTasks = [...tasks]` allocates a fresh top-level array, then the
scan runs on it and its reference is returned. -/
def addTaskAtPositionH (fuel : Nat) (h : Heap) (tasks : List Nat) (ntRef : Nat)
    (pos : Position) (X : String) : Heap × Nat :=
  let (h1, aref) := h.allocArr tasks
  (insertTaskH fuel h1 aref ntRef pos X 0, aref)

/-- A concrete store: node 0 is task "1" whose children array lives at
reference 10 and holds node 1 (task "2"); node 2 is a detached new task
"n"; references 11 and up are free. -/
def sampleHeap : Heap where
  nodes := fun j =>
    if j = 0 then some { id := "1", children := some 10 }
    else if j = 1 then some { id := "2", parentId := some "1" }
    else if j = 2 then some { id := "n" }
    else none
  arrs := fun j => if j = 10 then some [1] else none
  next := 11

/-! ## Helper lemmas about the tree primitives -/

/-- Lemma: `findTaskById` returns `none` exactly when no node in the forest has
the requested id. -/
theorem find_none_iff (ts : List Task) (x : String) :
    findTaskById ts x = none ↔ countId ts x = 0 := by
  induction ts, x using findTaskById.induct with
  | case1 x => simp [findTaskById, countId]
  | case2 d c ts =>
    cases c <;> simp [findTaskById, countId]
  | case3 d ts taskId hne cs found hf ih =>
    have hcs : countId cs taskId ≠ 0 := fun hz => by
      rw [← ih] at hz
      simp [hz] at hf
    simp [findTaskById, countId, hne, hf]
    omega
  | case4 d ts taskId hne cs hf ih1 ih2 =>
    have hcs : countId cs taskId = 0 := ih1.mp hf
    simp [findTaskById, countId, hne, hf, hcs, ih2]
  | case5 d ts taskId hne ih =>
    simp [findTaskById, countId, hne, ih]

/-- A forest without the id is left untouched by `updateTaskRecursively`. -/
theorem update_of_countId_zero (ts : List Task) (x : String) (p : TaskPatch)
    (h : countId ts x = 0) : updateTaskRecursively ts x p = ts := by
  induction ts, x, p using updateTaskRecursively.induct with
  | case1 => simp [updateTaskRecursively]
  | case2 d c ts taskId updates ihc iht =>
    cases c with
    | some cs =>
      simp only [countId] at h
      by_cases hid : d.id = taskId
      · simp [hid] at h
      · simp only [hid, if_false, reduceIte] at h
        have h1 : countId cs taskId = 0 := by omega
        have h2 : countId ts taskId = 0 := by omega
        simp [updateTaskRecursively, hid, ihc h1, iht h2]
    | none =>
      simp only [countId] at h
      by_cases hid : d.id = taskId
      · simp [hid] at h
      · simp only [hid, if_false, reduceIte] at h
        have h2 : countId ts taskId = 0 := by omega
        simp [updateTaskRecursively, hid, iht h2]

/-- A forest without the id is left untouched by `deleteTaskRecursively`. -/
theorem delete_of_countId_zero (ts : List Task) (x : String)
    (h : countId ts x = 0) : deleteTaskRecursively ts x = ts := by
  induction ts, x using deleteTaskRecursively.induct with
  | case1 => simp [deleteTaskRecursively]
  | case2 d c ts ih =>
    cases c <;> simp [countId] at h
  | case3 d c ts taskId hne ihc iht =>
    cases c with
    | some cs =>
      simp only [countId, hne, if_false, reduceIte] at h
      have h1 : countId cs taskId = 0 := by omega
      have h2 : countId ts taskId = 0 := by omega
      simp [deleteTaskRecursively, hne, ihc h1, iht h2]
    | none =>
      simp only [countId, hne, if_false, reduceIte] at h
      have h2 : countId ts taskId = 0 := by omega
      simp [deleteTaskRecursively, hne, iht h2]

/-- A forest without the id contributes no removed nodes. -/
theorem removedSize_of_countId_zero (ts : List Task) (x : String)
    (h : countId ts x = 0) : removedSize ts x = 0 := by
  induction ts, x using removedSize.induct with
  | case1 => simp [removedSize]
  | case2 d c ts ih =>
    cases c <;> simp [countId] at h
  | case3 d c ts taskId hne ihc iht =>
    cases c with
    | some cs =>
      simp only [countId, hne, if_false, reduceIte] at h
      have h1 : countId cs taskId = 0 := by omega
      have h2 : countId ts taskId = 0 := by omega
      simp [removedSize, hne, ihc h1, iht h2]
    | none =>
      simp only [countId, hne, if_false, reduceIte] at h
      have h2 : countId ts taskId = 0 := by omega
      simp [removedSize, hne, iht h2]

/-- Deleting preserves the node count up to the removed nodes (stated
additively to avoid truncated subtraction). -/
theorem countTasks_delete_add (ts : List Task) (x : String) :
    countTasks (deleteTaskRecursively ts x) + removedSize ts x = countTasks ts := by
  induction ts, x using deleteTaskRecursively.induct with
  | case1 => simp [deleteTaskRecursively, removedSize, countTasks]
  | case2 d c ts ih =>
    cases c <;>
      simp only [deleteTaskRecursively, removedSize, countTasks, taskSize,
        if_true, reduceIte] <;>
      omega
  | case3 d c ts taskId hne ihc iht =>
    cases c with
    | some cs =>
      simp only [deleteTaskRecursively, removedSize, countTasks, hne,
        if_false, reduceIte] at ihc iht ⊢
      omega
    | none =>
      simp only [deleteTaskRecursively, removedSize, countTasks, hne,
        if_false, reduceIte] at iht ⊢
      omega

/-- When the id occurs exactly once, the nodes removed by the delete are
exactly the subtree of the node `findTaskById` locates. -/
theorem removedSize_of_unique (ts : List Task) (x : String) (t : Task)
    (h1 : countId ts x = 1) (h2 : findTaskById ts x = some t) :
    removedSize ts x = taskSize t := by
  induction ts, x using findTaskById.induct with
  | case1 x => simp [findTaskById] at h2
  | case2 d c ts =>
    rw [findTaskById.eq_def] at h2
    simp only [if_pos rfl, reduceIte, Option.some.injEq] at h2
    subst h2
    cases c with
    | some cs =>
      simp only [countId, if_pos rfl, reduceIte] at h1
      have hts : countId ts d.id = 0 := by omega
      simp [removedSize, removedSize_of_countId_zero ts d.id hts]
    | none =>
      simp only [countId, if_pos rfl, reduceIte] at h1
      have hts : countId ts d.id = 0 := by omega
      simp [removedSize, removedSize_of_countId_zero ts d.id hts]
  | case3 d ts taskId hne cs found hf ih =>
    rw [findTaskById.eq_def] at h2
    simp only [hne, if_false, reduceIte, hf, Option.some.injEq] at h2
    subst h2
    simp only [countId, hne, if_false, reduceIte] at h1
    have hcs : countId cs taskId ≠ 0 := fun hz => by
      have := (find_none_iff cs taskId).mpr hz
      simp [this] at hf
    have hcs1 : countId cs taskId = 1 := by omega
    have hts : countId ts taskId = 0 := by omega
    simp [removedSize, hne, ih hcs1 hf, removedSize_of_countId_zero ts taskId hts]
  | case4 d ts taskId hne cs hf ih1 ih2 =>
    rw [findTaskById.eq_def] at h2
    simp only [hne, if_false, reduceIte, hf] at h2
    simp only [countId, hne, if_false, reduceIte] at h1
    have hcs : countId cs taskId = 0 := (find_none_iff cs taskId).mp hf
    have hts : countId ts taskId = 1 := by omega
    simp [removedSize, hne, removedSize_of_countId_zero cs taskId hcs, ih2 hts h2]
  | case5 d ts taskId hne ih =>
    rw [findTaskById.eq_def] at h2
    simp only [hne, if_false, reduceIte] at h2
    simp only [countId, hne, if_false, reduceIte] at h1
    have hts : countId ts taskId = 1 := by omega
    simp [removedSize, hne, ih hts h2]

/-- Every node matching the id is gone after the delete. -/
theorem countId_delete_zero (ts : List Task) (x : String) :
    countId (deleteTaskRecursively ts x) x = 0 := by
  induction ts, x using deleteTaskRecursively.induct with
  | case1 => simp [deleteTaskRecursively, countId]
  | case2 d c ts ih =>
    cases c <;> simp [deleteTaskRecursively, ih]
  | case3 d c ts taskId hne ihc iht =>
    cases c with
    | some cs => simp [deleteTaskRecursively, countId, hne, ihc, iht]
    | none => simp [deleteTaskRecursively, countId, hne, iht]

/-- Inserting relative to an id that occurs nowhere in a forest never makes
that id findable: no insertion happens below any node of the forest. -/
theorem find_insert_of_countId_zero (nt : Task) (pos : Position) (X : String)
    (ts : List Task) (h : countId ts X = 0) :
    findTaskById (insertTask nt pos X ts) X = none := by
  induction ts using insertTask.induct nt pos X with
  | case1 => simp [insertTask, findTaskById]
  | case2 d c rest hid hpos =>
    cases c <;> simp [countId, hid] at h
  | case3 d c rest hid hpos =>
    cases c <;> simp [countId, hid] at h
  | case4 d c rest hid hpos =>
    cases c <;> simp [countId, hid] at h
  | case5 d c rest hne ihc iht =>
    cases c with
    | some cs =>
      simp only [countId, hne, if_false, reduceIte] at h
      have h1 : countId cs X = 0 := by omega
      have h2 : countId rest X = 0 := by omega
      rw [insertTask.eq_def]
      simp only [hne, if_false, reduceIte]
      rw [findTaskById.eq_def]
      simp [hne, ihc h1, iht h2]
    | none =>
      simp only [countId, hne, if_false, reduceIte] at h
      have h2 : countId rest X = 0 := by omega
      rw [insertTask.eq_def]
      simp only [hne, if_false, reduceIte]
      rw [findTaskById.eq_def]
      simp [hne, iht h2]

/-- Lemma: `insertTask` scans past a non-matching node by rebuilding it around its
recursively processed children. -/
theorem insertTask_cons_ne (nt : Task) (pos : Position) (X : String) (t : Task)
    (l : List Task) (h : t.tid ≠ X) :
    insertTask nt pos X (t :: l) = insertRebuild nt pos X t :: insertTask nt pos X l := by
  cases t with
  | mk d c =>
    have hd : d.id ≠ X := by simpa [Task.tid, Task.data] using h
    cases c <;> (rw [insertTask.eq_def]; simp [insertRebuild, hd])

/-- At the matching node, position `above` splices the new task in just
before it and leaves the rest of the sibling list untouched. -/
theorem insertTask_cons_above (nt : Task) (X : String) (x : Task) (l : List Task)
    (h : x.tid = X) : insertTask nt .above X (x :: l) = nt :: x :: l := by
  cases x with
  | mk d c =>
    have hd : d.id = X := by simpa [Task.tid, Task.data] using h
    rw [insertTask.eq_def]
    simp [hd]

/-- At the matching node, position `below` splices the new task in just
after it and leaves the rest of the sibling list untouched. -/
theorem insertTask_cons_below (nt : Task) (X : String) (x : Task) (l : List Task)
    (h : x.tid = X) : insertTask nt .below X (x :: l) = x :: nt :: l := by
  cases x with
  | mk d c =>
    have hd : d.id = X := by simpa [Task.tid, Task.data] using h
    rw [insertTask.eq_def]
    simp [hd]

/-- The rebuild step never changes a node's id. -/
theorem tid_insertRebuild (nt : Task) (pos : Position) (X : String) (t : Task) :
    (insertRebuild nt pos X t).tid = t.tid := by
  cases t with
  | mk d c => cases c <;> rfl

/-! ## Claim theorems -/

/-- C9: `START_RESIZE` sets `selectedTaskId` to the given task id (on top of
setting `isResizing := true` and `resizeHandle` to the given handle) and
changes no other state field, while `END_RESIZE` only clears `isResizing`
and `resizeHandle`, leaving the selection in place. -/
theorem start_resize_selects_task (s : GanttState) (taskId handle : String) :
    ganttReducer s (.START_RESIZE taskId handle) =
      { s with
        isResizing := true
        resizeHandle := some handle
        selectedTaskId := some taskId }
    ∧ ganttReducer s .END_RESIZE =
      { s with isResizing := false, resizeHandle := none } :=
  ⟨rfl, rfl⟩

/-- C4 counterexample: for `start = day 5`, `end = day 3` the duration is
`-1`, so the claim's "result is at least 1 for every pair of dates" fails;
the minimum only holds when `start ≤ end`. -/
theorem duration_not_always_min_one :
    calculateTaskDuration 5 3 = -1 ∧ ¬ (1 ≤ calculateTaskDuration 5 3) := by
  decide

/-- C4 (amended): the duration function returns `(end − start) + 1` for
every pair of dates, and whenever `start ≤ end` the result is at least 1
(a same-day task has duration 1). -/
theorem duration_law (s e : Int) :
    calculateTaskDuration s e = (e - s) + 1 ∧ (s ≤ e → 1 ≤ calculateTaskDuration s e) := by
  refine ⟨rfl, fun h => ?_⟩
  simp only [calculateTaskDuration, differenceInDays]
  omega

/-- C4 witness: the amended law evaluated on the same-day pair `(10, 10)`. -/
theorem duration_law_witness :
    calculateTaskDuration 10 10 = (10 - 10) + 1 ∧ 1 ≤ calculateTaskDuration 10 10 :=
  ⟨(duration_law 10 10).1, (duration_law 10 10).2 (by decide)⟩

/-- C3: starting from an anchor interval with `start < end`, every
`(newStartDate, newEndDate)` pair the resize move handler produces
satisfies `start < end`; a start-handle result reaching or passing the
anchor end is clamped to anchor end minus 1 day, an end-handle result
reaching or passing the anchor start is clamped to anchor start plus
1 day, and in particular dragging the end handle of `(10, 12)` left by
5 days yields `(10, 11)`. -/
theorem resize_clamp (origStart origEnd : Int) (handle : String) (daysDelta : Int)
    (_hlt : origStart < origEnd) :
    (handleResizeMouseMove origStart origEnd handle daysDelta).1 <
      (handleResizeMouseMove origStart origEnd handle daysDelta).2
    ∧ (handle = "start" → origEnd ≤ origStart + daysDelta →
        handleResizeMouseMove origStart origEnd handle daysDelta = (origEnd - 1, origEnd))
    ∧ (handle ≠ "start" → origEnd + daysDelta ≤ origStart →
        handleResizeMouseMove origStart origEnd handle daysDelta = (origStart, origStart + 1))
    ∧ handleResizeMouseMove 10 12 "end" (-5) = (10, 11) := by
  refine ⟨?_, fun hh hc => ?_, fun hh hc => ?_, by decide⟩
  · by_cases hh : handle = "start"
    · simp only [handleResizeMouseMove, addDays, hh, reduceIte]
      split_ifs <;> omega
    · rw [handleResizeMouseMove, if_neg hh]
      simp only [addDays]
      split_ifs <;> omega
  · simp only [handleResizeMouseMove, addDays, hh, reduceIte]
    rw [if_pos hc]
    have h1 : origEnd + (-1) = origEnd - 1 := by omega
    rw [h1]
  · rw [handleResizeMouseMove, if_neg hh]
    simp only [addDays]
    rw [if_pos hc]

/-- C3 witness: the clamp theorem evaluated at the spec's scenario — anchor
`(10, 12)`, end handle, `daysDelta = -5`. -/
theorem resize_clamp_witness :
    (handleResizeMouseMove 10 12 "end" (-5)).1 <
      (handleResizeMouseMove 10 12 "end" (-5)).2
    ∧ ("end" = "start" → (12 : Int) ≤ 10 + (-5) →
        handleResizeMouseMove 10 12 "end" (-5) = (12 - 1, 12))
    ∧ ("end" ≠ "start" → (12 : Int) + (-5) ≤ 10 →
        handleResizeMouseMove 10 12 "end" (-5) = (10, 10 + 1))
    ∧ handleResizeMouseMove 10 12 "end" (-5) = (10, 11) :=
  resize_clamp 10 12 "end" (-5) (by decide)

/-- C1 counterexample: in the concrete state whose forest is the tree
`1[2]`, dispatching `MOVE_TASK_TO_PARENT` with `taskId = "2"`,
`newParentId = null` and `newIndex = 0` leaves the state unchanged: task
"2" does not appear among the roots (so it was not re-parented to root at
index 0) and is still the child of "1". -/
theorem move_task_to_parent_counterexample :
    ganttReducer sampleState (.MOVE_TASK_TO_PARENT "2" none 0) = sampleState
    ∧ (ganttReducer sampleState (.MOVE_TASK_TO_PARENT "2" none 0)).tasks.map Task.tid = ["1"]
    ∧ ¬ "2" ∈ (ganttReducer sampleState (.MOVE_TASK_TO_PARENT "2" none 0)).tasks.map Task.tid := by
  exact ⟨rfl, by decide, by decide⟩

/-- C1 (amended): `MOVE_TASK_TO_PARENT` is declared in the action union but
the reducer's switch has no case for it, so dispatching it falls through to
the `default` branch and returns the state unchanged for every state and
payload. -/
theorem move_task_to_parent_noop (s : GanttState) (taskId : String)
    (newParentId : Option String) (newIndex : Int) :
    ganttReducer s (.MOVE_TASK_TO_PARENT taskId newParentId newIndex) = s :=
  rfl

/-- C10 counterexample: for a two-task root list and
`sourceIndex = -5 < -length`, the first splice clamps the start index to 0
and removes the FIRST element (it does not remove nothing), so no
`undefined` hole is inserted: the resulting list is `[task0, task1]` again,
its length is 2 (not 2 + 1), and every element is a real task. -/
theorem reorder_negative_index_counterexample :
    reorderTasks [sampleParent, sampleChild] (-5) 0 = [some sampleParent, some sampleChild]
    ∧ (reorderTasks [sampleParent, sampleChild] (-5) 0).length ≠ 2 + 1
    ∧ (reorderTasks [sampleParent, sampleChild] (-5) 0).all Option.isSome = true :=
  ⟨rfl, by decide, rfl⟩

/-- C10 (amended): the `REORDER_TASKS` body performs no bounds check, and
for every root list and `sourceIndex ≥ length` the first splice removes no
element, `removed` is `undefined`, and the second splice inserts that
`undefined` hole, so the resulting raw array has length `length + 1` and
contains a non-Task (`undefined`) entry; for `sourceIndex < -length`,
however, splice clamps the start offset to 0 and removes the first element
instead. -/
theorem reorder_out_of_range (tasks : List Task) (sourceIndex destinationIndex : Int)
    (h : (tasks.length : Int) ≤ sourceIndex) :
    (reorderTasks tasks sourceIndex destinationIndex).length = tasks.length + 1
    ∧ none ∈ reorderTasks tasks sourceIndex destinationIndex := by
  have hnn : ¬ sourceIndex < 0 := by omega
  have hs : spliceStart (tasks.map some).length sourceIndex = tasks.length := by
    simp only [spliceStart, hnn, if_false, List.length_map, reduceIte]
    omega
  constructor
  · simp only [reorderTasks, hs]
    have hdrop : (tasks.map (fun t => some t)).drop tasks.length = [] := by
      apply List.drop_eq_nil_of_le
      simp
    simp [hdrop, List.take_of_length_le, List.length_take]
    omega
  · simp only [reorderTasks, hs]
    have hdrop : (tasks.map (fun t => some t)).drop tasks.length = [] := by
      apply List.drop_eq_nil_of_le
      simp
    simp [hdrop]

/-- C10 witness: the out-of-range law evaluated on a one-task root list with
`sourceIndex = 5`. -/
theorem reorder_out_of_range_witness :
    (reorderTasks [sampleChild] 5 0).length = [sampleChild].length + 1
    ∧ none ∈ reorderTasks [sampleChild] 5 0 :=
  reorder_out_of_range [sampleChild] 5 0 (by decide)

/-- C5: for a forest containing exactly one node with id `X`,
`deleteTaskRecursively` removes that node and its whole subtree: the node
count of the result is the original count minus the size of the subtree
rooted at `X`, and no node with id `X` survives. -/
theorem delete_subtree_count (ts : List Task) (X : String) (t : Task)
    (h1 : countId ts X = 1) (h2 : findTaskById ts X = some t) :
    countTasks (deleteTaskRecursively ts X) = countTasks ts - taskSize t
    ∧ countId (deleteTaskRecursively ts X) X = 0 := by
  have hadd := countTasks_delete_add ts X
  have hrs := removedSize_of_unique ts X t h1 h2
  exact ⟨by omega, countId_delete_zero ts X⟩

/-- C5 witness: deleting leaf "2" from the two-node tree `1[2]` leaves
`2 - 1` nodes. -/
theorem delete_subtree_count_witness :
    countTasks (deleteTaskRecursively [sampleParent] "2") =
      countTasks [sampleParent] - taskSize sampleChild
    ∧ countId (deleteTaskRecursively [sampleParent] "2") "2" = 0 :=
  delete_subtree_count [sampleParent] "2" sampleChild
    (by simp [countId, sampleParent, sampleChild])
    (by simp [findTaskById, sampleParent, sampleChild])

/-- C6: when no node of the forest has id `X`, the recursive update (with
any partial payload), the recursive delete, and the expansion toggle all
return the forest (and state) unchanged, with no error signalled. -/
theorem identity_on_miss (s : GanttState) (X : String) (p : TaskPatch)
    (h : countId s.tasks X = 0) :
    updateTaskRecursively s.tasks X p = s.tasks
    ∧ deleteTaskRecursively s.tasks X = s.tasks
    ∧ ganttReducer s (.TOGGLE_TASK_EXPANSION X) = s := by
  refine ⟨update_of_countId_zero s.tasks X p h, delete_of_countId_zero s.tasks X h, ?_⟩
  simp only [ganttReducer]
  rw [update_of_countId_zero _ _ _ h]

/-- C6 witness: the miss-identity law evaluated on the sample state with
the absent id "9". -/
theorem identity_on_miss_witness :
    updateTaskRecursively sampleState.tasks "9" {} = sampleState.tasks
    ∧ deleteTaskRecursively sampleState.tasks "9" = sampleState.tasks
    ∧ ganttReducer sampleState (.TOGGLE_TASK_EXPANSION "9") = sampleState :=
  identity_on_miss sampleState "9" {}
    (by simp [countId, sampleState, sampleParent, sampleChild])

/-- C7: inserting `newTask` as a `subtask` of a findable node `X` appends
`newTask` (with `parentId` set to `X`) as the last element of `X`'s
children — the array being created when absent — and forces `X`'s
`isExpanded` to `true`; the node `findTaskById` locates afterwards is
exactly the rebuilt target. -/
theorem subtask_insertion (ts : List Task) (X : String) (t newTask : Task)
    (h : findTaskById ts X = some t) :
    findTaskById (addTaskAtPosition ts newTask .subtask X) X =
      some (Task.mk { t.data with isExpanded := some true }
        (some (t.children.getD [] ++ [withParentId newTask X])))
    ∧ (withParentId newTask X).data.parentId = some X := by
  refine ⟨?_, by cases newTask with | mk d c => rfl⟩
  unfold addTaskAtPosition
  induction ts, X using findTaskById.induct with
  | case1 x => simp [findTaskById] at h
  | case2 d c ts =>
    rw [findTaskById.eq_def] at h
    simp only [if_pos rfl, reduceIte, Option.some.injEq] at h
    subst h
    rw [insertTask.eq_def]
    simp only [if_pos rfl, reduceIte]
    rw [findTaskById.eq_def]
    simp [Task.data, Task.children]
  | case3 d ts taskId hne cs found hf ih =>
    rw [findTaskById.eq_def] at h
    simp only [hne, if_false, reduceIte, hf, Option.some.injEq] at h
    subst h
    rw [insertTask.eq_def]
    simp only [hne, if_false, reduceIte]
    rw [findTaskById.eq_def]
    simp [hne, ih hf]
  | case4 d ts taskId hne cs hf ih1 ih2 =>
    rw [findTaskById.eq_def] at h
    simp only [hne, if_false, reduceIte, hf] at h
    have hz : countId cs taskId = 0 := (find_none_iff cs taskId).mp hf
    rw [insertTask.eq_def]
    simp only [hne, if_false, reduceIte]
    rw [findTaskById.eq_def]
    simp [hne, find_insert_of_countId_zero newTask .subtask taskId cs hz, ih2 h]
  | case5 d ts taskId hne ih =>
    rw [findTaskById.eq_def] at h
    simp only [hne, if_false, reduceIte] at h
    rw [insertTask.eq_def]
    simp only [hne, if_false, reduceIte]
    rw [findTaskById.eq_def]
    simp [hne, ih h]

/-- C7 witness: inserting `sampleX` as a subtask of the leaf "2" inside
the tree `1[2]`. -/
theorem subtask_insertion_witness :
    findTaskById (addTaskAtPosition [sampleParent] sampleX .subtask "2") "2" =
      some (Task.mk { sampleChild.data with isExpanded := some true }
        (some (sampleChild.children.getD [] ++ [withParentId sampleX "2"])))
    ∧ (withParentId sampleX "2").data.parentId = some "2" :=
  subtask_insertion [sampleParent] "2" sampleChild sampleX
    (by simp [findTaskById, sampleParent, sampleChild])

/-- C8: when the sibling list containing the target `x` is
`pre ++ x :: post` with no earlier sibling carrying the target id,
inserting `above` produces `pre' ++ newTask :: x :: post` and inserting
`below` produces `pre' ++ x :: newTask :: post`, where `pre'` is `pre`
with each element rebuilt around its recursively processed children; the
list length grows by exactly 1 and the ids of all other siblings keep
their relative order. -/
theorem insert_sibling_order (pre post : List Task) (x newTask : Task) (X : String)
    (hx : x.tid = X) (hpre : ¬ X ∈ pre.map Task.tid) :
    insertTask newTask .above X (pre ++ x :: post) =
      pre.map (insertRebuild newTask .above X) ++ newTask :: x :: post
    ∧ insertTask newTask .below X (pre ++ x :: post) =
      pre.map (insertRebuild newTask .below X) ++ x :: newTask :: post
    ∧ (insertTask newTask .above X (pre ++ x :: post)).length =
        (pre ++ x :: post).length + 1
    ∧ (insertTask newTask .below X (pre ++ x :: post)).length =
        (pre ++ x :: post).length + 1
    ∧ (pre.map (insertRebuild newTask .above X)).map Task.tid = pre.map Task.tid
    ∧ (pre.map (insertRebuild newTask .below X)).map Task.tid = pre.map Task.tid := by
  have hgen : ∀ pos : Position, ∀ seg : List Task,
      insertTask newTask pos X (x :: post) = seg →
      ∀ pr : List Task, ¬ X ∈ pr.map Task.tid →
      insertTask newTask pos X (pr ++ x :: post) =
        pr.map (insertRebuild newTask pos X) ++ seg := by
    intro pos seg hseg pr
    induction pr with
    | nil => intro _; simpa using hseg
    | cons p pr ih =>
      intro hmem
      simp only [List.map_cons, List.mem_cons] at hmem
      push_neg at hmem
      rw [List.cons_append,
        insertTask_cons_ne newTask pos X p _ (fun hh => hmem.1 hh.symm),
        ih hmem.2]
      simp
  have habove := hgen .above (newTask :: x :: post)
    (insertTask_cons_above newTask X x post hx) pre hpre
  have hbelow := hgen .below (x :: newTask :: post)
    (insertTask_cons_below newTask X x post hx) pre hpre
  have htid : ∀ pos : Position,
      (pre.map (insertRebuild newTask pos X)).map Task.tid = pre.map Task.tid := by
    intro pos
    rw [List.map_map]
    apply List.map_congr_left
    intro a _
    exact tid_insertRebuild newTask pos X a
  refine ⟨habove, hbelow, ?_, ?_, htid .above, htid .below⟩
  · rw [habove]; simp; omega
  · rw [hbelow]; simp; omega

/-- C8 witness: inserting around the target "x" in the sibling list
`[a, x, b]`. -/
theorem insert_sibling_order_witness :
    insertTask sampleX .above "x" ([sampleA] ++ sampleX :: [sampleB]) =
      [sampleA].map (insertRebuild sampleX .above "x") ++ sampleX :: sampleX :: [sampleB]
    ∧ insertTask sampleX .below "x" ([sampleA] ++ sampleX :: [sampleB]) =
      [sampleA].map (insertRebuild sampleX .below "x") ++ sampleX :: sampleX :: [sampleB]
    ∧ (insertTask sampleX .above "x" ([sampleA] ++ sampleX :: [sampleB])).length =
        ([sampleA] ++ sampleX :: [sampleB]).length + 1
    ∧ (insertTask sampleX .below "x" ([sampleA] ++ sampleX :: [sampleB])).length =
        ([sampleA] ++ sampleX :: [sampleB]).length + 1
    ∧ ([sampleA].map (insertRebuild sampleX .above "x")).map Task.tid =
        [sampleA].map Task.tid
    ∧ ([sampleA].map (insertRebuild sampleX .below "x")).map Task.tid =
        [sampleA].map Task.tid :=
  insert_sibling_order [sampleA] [sampleB] sampleX sampleX "x"
    (by simp [Task.tid, Task.data, sampleX])
    (by simp [Task.tid, Task.data, sampleA])

/-- C2: evaluation of the store-level helpers at the failing input, the
two-node forest `1[2]` (node 0 = task "1", its children array at
reference 10 = `[node 1]` = task "2").  Deleting "2" executes
`task.children = deleteTaskRecursively(task.children, taskId)` on task
"1": the stored object at reference 0 is reassigned in place (its
`children` field now points at the freshly allocated filtered array 11),
so a node of the argument forest IS mutated.  Likewise, inserting a new
task `above` "2" executes `taskList.splice(i, 0, newTask)` on the nested
children array of task "1": the array stored at reference 10 changes from
`[1]` to `[2, 1]` in place.  Only the top-level list is returned as a new
value, contradicting the no-mutation claim for the input's inner nodes. -/
theorem tree_helpers_mutate_input :
    (deleteTaskRecursivelyH 2 sampleHeap [0] "2").1.nodes 0 =
      some { id := "1", children := some 11 }
    ∧ sampleHeap.nodes 0 = some { id := "1", children := some 10 }
    ∧ (deleteTaskRecursivelyH 2 sampleHeap [0] "2").1.nodes 0 ≠ sampleHeap.nodes 0
    ∧ (addTaskAtPositionH 3 sampleHeap [0] 2 .above "2").1.arrs 10 = some [2, 1]
    ∧ sampleHeap.arrs 10 = some [1]
    ∧ (addTaskAtPositionH 3 sampleHeap [0] 2 .above "2").1.arrs 10 ≠ sampleHeap.arrs 10 :=
  ⟨rfl, rfl, by decide, rfl, rfl, by decide⟩

end Gantt
